import Mathlib

/-!
# ec_lock_smith: the login form controller (`src/api/public/js/login.js`)

A shallow embedding of the three functions of the file, `setCookie`,
`getCookie` and the `handleLogin` method of the Vue application, followed by
the properties proved about them.

JavaScript strings are modelled by Lean strings (sequences of characters); the
string primitives the source calls (`charAt`, `substring`, `indexOf`, `split`)
are defined on them with their ECMAScript meaning.
-/

namespace LockSmith

/-! ## String primitives used by the source -/

/-- The method `s.charAt(i)`: the one-character string at index `i`, or the
empty string when `i` is out of range. -/
def charAt (s : String) (i : Nat) : String :=
  match s.data.get? i with
  | some ch => ⟨[ch]⟩
  | none => ""

/-- The method `s.substring(a, b)` for non-negative indices: both indices are
clamped to the length, swapped when `a > b`, and the characters from the
smaller (inclusive) to the larger (exclusive) are returned. -/
def substring (s : String) (a b : Nat) : String :=
  let a1 := min a s.length
  let b1 := min b s.length
  ⟨(s.data.take (max a1 b1)).drop (min a1 b1)⟩

/-- The method `s.substring(a)`: the second index defaults to `s.length`. -/
def substringFrom (s : String) (a : Nat) : String :=
  substring s a s.length

/-- Search of `t` in the character list `s`, as `indexOf` does it: the index
of the first occurrence, or `-1`. -/
def indexOfChars (s t : List Char) : Int :=
  match s with
  | [] => if t.isPrefixOf [] then 0 else -1
  | ch :: rest =>
    if t.isPrefixOf (ch :: rest) then 0
    else
      let r := indexOfChars rest t
      if r < 0 then -1 else r + 1

/-- The method `s.indexOf(t)`. -/
def indexOf (s t : String) : Int :=
  indexOfChars s.data t.data

/-- Pieces of a character list cut at every occurrence of `sep`. -/
def splitChars (sep : Char) : List Char → List (List Char)
  | [] => [[]]
  | ch :: rest =>
    if ch = sep then [] :: splitChars sep rest
    else
      match splitChars sep rest with
      | [] => [[ch]]
      | seg :: segs => (ch :: seg) :: segs

/-- The method `s.split(sep)` for a one-character separator: the empty string
gives one empty piece. -/
def split (s : String) (sep : Char) : List String :=
  (splitChars sep s.data).map String.mk

/-! ## `getCookie` (login.js, lines 10-23) -/

/-- The inner loop `while (c.charAt(0) == ' ') { c = c.substring(1); }`. -/
def stripLoop (c : String) : String :=
  if charAt c 0 = " " then stripLoop (substringFrom c 1) else c
termination_by c.length
decreasing_by
  rename_i h
  rcases c with ⟨cs⟩
  cases cs with
  | nil => simp [charAt] at h
  | cons x xs => simp [substringFrom, substring, String.length]

/-- The loop `for (let i = 0; i < ca.length; i++)` of `getCookie`, entered at
index `i`; `name` is `cname + "="`. The value after the loop is `""`. -/
def getCookieLoop (name : String) (ca : List String) (i : Nat) : String :=
  if h : i < ca.length then
    let c := stripLoop (ca.get ⟨i, h⟩)
    if indexOf c name = 0 then substring c name.length c.length
    else getCookieLoop name ca (i + 1)
  else ""
termination_by ca.length - i

/-- The function `getCookie(cname)`; the cookie header it reads,
`document.cookie`, is passed as an argument. -/
def getCookie (documentCookie : String) (cname : String) : String :=
  let name := cname ++ "="
  let ca := split documentCookie ';'
  getCookieLoop name ca 0

/-- The reference definition of `readCookie`, following the words of the
specification: split the header on `;`, remove all leading spaces of each
segment, take the first segment that starts with `name=` and return what
follows that prefix; the empty string when no segment qualifies. -/
def readCookieSpec (header : String) (name : String) : String :=
  let segments := (header.data.splitOn ';').map (List.dropWhile (fun ch => ch == ' '))
  match segments.find? (fun seg => (name.data ++ ['=']).isPrefixOf seg) with
  | some seg => ⟨seg.drop (name.data.length + 1)⟩
  | none => ""

/-- What the loop of `getCookie` returns over the segments still to visit: the
remainder of the first stripped segment in which `name` is found at index 0. -/
def firstMatch (name : String) (segs : List String) : String :=
  match (segs.map stripLoop).find? (fun c => decide (indexOf c name = 0)) with
  | some c => substring c name.length c.length
  | none => ""

/-! ## `setCookie` (login.js, lines 3-8) -/

/-- The function `setCookie(cname, cvalue, exdays)`: the result is the string
it assigns to `document.cookie`. The clock read by `new Date()` is `now`, in
milliseconds, and `toUTCString` renders a time value as `Date.prototype`
does; neither is part of the file. -/
def setCookie (now : Int) (toUTCString : Int → String) (cname cvalue : String) (exdays : Int) :
    String :=
  let d := now + exdays * 24 * 60 * 60 * 1000
  let expires := "expires=" ++ toUTCString d
  cname ++ "=" ++ cvalue ++ ";" ++ expires ++ ";path=/"

/-- The text of a string assigned to `document.cookie` before its first `;`:
the pair `name=value` of the cookie, the attributes left out. -/
def writtenPair (assigned : String) : String :=
  ⟨assigned.data.takeWhile (fun ch => ch != ';')⟩

/-- A cookie header text in which `pair` stands as a segment: the segments
`before`, each followed by `;`, then `spaces` spaces, then `pair`, then `rest`
(empty, or the further segments from their `;` on). -/
def headerWith (before : List String) (spaces : Nat) (pair rest : String) : String :=
  before.foldr (fun b acc => b ++ ";" ++ acc) (⟨List.replicate spaces ' '⟩ ++ pair ++ rest)

/-! ## Values, the component's state and the collaborators of `handleLogin` -/

/-- A JavaScript number: a finite value (kept as the rational it denotes, the
two zeros identified), an infinity or NaN. -/
inductive JsNumber where
  | finite (q : ℚ)
  | posInf
  | negInf
  | nan
  deriving DecidableEq

/-- A JavaScript value as `response.json()` or a property read can deliver it.
An object is the list of its own properties. -/
inductive JsValue where
  | undefined
  | null
  | bool (b : Bool)
  | num (n : JsNumber)
  | str (s : String)
  | arr (items : List JsValue)
  | obj (fields : List (String × JsValue))

/-- Truthiness, as `v || w` decides it. -/
def JsValue.truthy : JsValue → Bool
  | .undefined => false
  | .null => false
  | .bool b => b
  | .num n => decide (n ≠ .finite 0 ∧ n ≠ .nan)
  | .str s => decide (s ≠ "")
  | .arr _ => true
  | .obj _ => true

/-- The expression `a || b`. -/
def JsValue.orElse (a b : JsValue) : JsValue :=
  if a.truthy then a else b

/-- The comparison `v !== 200`. -/
def JsValue.strictNe200 : JsValue → Bool
  | .num (.finite q) => decide (q ≠ 200)
  | _ => true

/-- An error value reaching a `catch` clause; `message` is `undefined` when
the error has none. -/
structure JsError where
  name : String
  message : JsValue

/-- The property read `data.key` for the two keys the source reads, `status`
and `message`: it throws on `null` and `undefined`, finds an own property of
an object, and is `undefined` on every other value. -/
def JsValue.getProp (typeError : String → JsError) (data : JsValue) (key : String) :
    Except JsError JsValue :=
  match data with
  | .undefined => .error (typeError key)
  | .null => .error (typeError key)
  | .obj fields =>
    match fields.lookup key with
    | some v => .ok v
    | none => .ok .undefined
  | _ => .ok .undefined

/-- The data of the Vue component (lines 26-32). -/
structure FormState where
  email : String
  password : String
  loading : Bool

/-- The value `data()` returns. -/
def initialForm : FormState :=
  { email := "", password := "", loading := false }

/-- A call of `fetch`: `bodyJson` is the value handed to `JSON.stringify`. -/
structure Request where
  url : String
  method : String
  headers : List (String × String)
  bodyJson : JsValue

/-- The options `displayToaster` hands to `Toastify`; `background` is the one
entry of `style` that varies. -/
structure Toast where
  text : JsValue
  duration : Nat
  close : Bool
  gravity : String
  position : String
  background : String

/-- A callback registered with `setTimeout` that assigns `window.location.href`. -/
structure Navigation where
  href : String
  delayMs : Nat

/-- The component's data together with everything the handler has done to its
collaborators so far, oldest first: the calls of `fetch`, the toasts shown,
the calls of `sessionStorage.setItem`, the strings assigned to
`document.cookie`, the navigations scheduled and the calls of `console.error`. -/
structure World where
  form : FormState
  requests : List Request
  toasts : List Toast
  sessionWrites : List (String × String)
  cookieWrites : List String
  navigations : List Navigation
  consoleErrors : List (String × JsError)

/-- What the page gets from outside the file: the global `API_BASE_URL`, the
clock and the date rendering behind `new Date()` and `toUTCString`, and the
`TypeError` the engine raises for a property read on `null`. -/
structure Env where
  API_BASE_URL : String
  now : Int
  toUTCString : Int → String
  typeError : String → JsError

/-- How the round trip `await fetch(...)` then `await response.json()` ends:
the first promise is rejected, the second is rejected, or the body parses. -/
inductive RoundTrip where
  | fetchRejected (error : JsError)
  | jsonRejected (error : JsError)
  | parsed (data : JsValue)

/-- The method `displayToaster(message, backgroundColor = "#ffa07a")`
(lines 74-92). -/
def displayToaster (w : World) (message : JsValue) (backgroundColor : Option String) : World :=
  let background := match backgroundColor with
    | some colour => colour
    | none => "#ffa07a"
  { w with toasts := w.toasts ++
      [{ text := message, duration := 3000, close := false, gravity := "top",
         position := "right", background := background }] }

/-- The argument of `fetch` in `handleLogin` (lines 45-49). -/
def loginRequest (env : Env) (form : FormState) : Request :=
  { url := env.API_BASE_URL ++ "/login"
    method := "POST"
    headers := [("Content-Type", "application/json")]
    bodyJson := .obj [("email", .str form.email), ("password", .str form.password)] }

/-- The part of `handleLogin` that runs before the first `await` (lines 35-49):
validation, the re-entry guard, `this.loading = true` and the call of `fetch`.
The flag returned tells whether the call is now suspended on the request. -/
def handleLoginSync (env : Env) (w : World) : World × Bool :=
  if w.form.email = "" ∨ w.form.password = "" then
    (displayToaster w (.str "Please enter email and password") (some "red"), false)
  else if w.form.loading then (w, false)
  else
    let w1 := { w with form := { w.form with loading := true } }
    ({ w1 with requests := w1.requests ++ [loginRequest env w1.form] }, true)

/-- The body of `try` from the first `await` on (lines 45-65). No statement
before a point that can throw changes the state, so an exception carries no
state. -/
def tryBlock (env : Env) (rt : RoundTrip) (w : World) : Except JsError World :=
  match rt with
  | .fetchRejected error => .error error
  | .jsonRejected error => .error error
  | .parsed data => do
    let status ← data.getProp env.typeError "status"
    if status.strictNe200 then
      let message ← data.getProp env.typeError "message"
      return displayToaster w (message.orElse (.str "Invalid credentials")) (some "red")
    let w1 := { w with sessionWrites := w.sessionWrites ++ [("ec_id", w.form.email)] }
    let w2 := { w1 with cookieWrites := w1.cookieWrites ++
      [setCookie env.now env.toUTCString "ec_id" w1.form.email 1] }
    let w3 := displayToaster w2 (.str "Login successful, redirecting...") none
    return { w3 with navigations := w3.navigations ++
      [{ href := "./console.html", delayMs := 100 }] }

/-- The `catch (error)` clause (lines 67-69). -/
def catchBlock (w : World) (error : JsError) : World :=
  let w1 := displayToaster w
    (error.message.orElse (.str "Something went wrong, please try again")) (some "red")
  { w1 with consoleErrors := w1.consoleErrors ++ [("[Error]::[Auth] -> ", error)] }

/-- The `finally` clause (line 71). -/
def finallyBlock (w : World) : World :=
  { w with form := { w.form with loading := false } }

/-- The rest of `handleLogin` once the round trip has ended: `try`, `catch`
on an exception, and `finally` on both ways out. -/
def handleLoginResume (env : Env) (rt : RoundTrip) (w : World) : World :=
  match tryBlock env rt w with
  | .ok w1 => finallyBlock w1
  | .error error => finallyBlock (catchBlock w error)

/-- What can happen on the page while a call of `handleLogin` waits for the
round trip: a bound input changes `email` or `password`, or the form is
submitted again. -/
inductive PageEvent where
  | inputEmail (value : String)
  | inputPassword (value : String)
  | submit

/-- The effect of one event on the page. A call of `handleLogin` made while
another waits finds `loading` true, so it ends in its synchronous part. -/
def PageEvent.apply (env : Env) (w : World) : PageEvent → World
  | .inputEmail value => { w with form := { w.form with email := value } }
  | .inputPassword value => { w with form := { w.form with password := value } }
  | .submit => (handleLoginSync env w).1

/-- The page after the events `during`, in order. -/
def inFlight (env : Env) (during : List PageEvent) (w : World) : World :=
  during.foldl (PageEvent.apply env) w

/-- A whole call of `handleLogin()`: `rt` is how the round trip ends if a
request is made, `during` what happens on the page while the call waits for
it. The rest of the call runs on the page as it is then, so `this.email` at
lines 59-60 is the identifier the form holds when the response arrives. -/
def handleLogin (env : Env) (rt : RoundTrip) (during : List PageEvent) (w : World) : World :=
  match handleLoginSync env w with
  | (w1, true) => handleLoginResume env rt (inFlight env during w1)
  | (w1, false) => w1

/-- The page when the response arrives, for a call made on `w` with both
fields filled in and no submission in flight. -/
def atResponse (env : Env) (during : List PageEvent) (w : World) : World :=
  inFlight env during
    { w with
      form := { w.form with loading := true },
      requests := w.requests ++ [loginRequest env w.form] }

/-- The toast of the validation branch (line 36). -/
def warningToast : Toast :=
  { text := .str "Please enter email and password", duration := 3000, close := false,
    gravity := "top", position := "right", background := "red" }

/-! ## Concrete inputs -/

/-- An environment to evaluate the handler in. -/
def sampleEnv : Env :=
  { API_BASE_URL := "https://auth.example.test"
    now := 0
    toUTCString := fun t => toString t
    typeError := fun key =>
      { name := "TypeError"
        message := .str ("Cannot read properties of null (reading " ++ key ++ ")") } }

/-- A page on which the handler has done nothing yet. -/
def World.ofForm (form : FormState) : World :=
  { form := form, requests := [], toasts := [], sessionWrites := [], cookieWrites := [],
    navigations := [], consoleErrors := [] }

/-- Both fields filled in, no submission in flight. -/
def filledIdle : World :=
  World.ofForm { email := "ada@example.test", password := "s3cret", loading := false }

/-- Both fields filled in, a submission in flight. -/
def filledInFlight : World :=
  World.ofForm { email := "ada@example.test", password := "s3cret", loading := true }

/-- The identifier empty, a submission in flight. -/
def blankInFlight : World :=
  World.ofForm { email := "", password := "s3cret", loading := true }

/-- The secret empty, no submission in flight. -/
def blankIdle : World :=
  World.ofForm { email := "ada@example.test", password := "", loading := false }

/-- The body `{"status":401,"message":"bad credentials"}`. -/
def rejectedBody : List (String × JsValue) :=
  [("status", .num (.finite 401)), ("message", .str "bad credentials")]

/-- The body `{"status":200}`. -/
def acceptedBody : List (String × JsValue) :=
  [("status", .num (.finite 200))]

/-- Both fields filled in, the identifier with a `;` in it. -/
def semicolonIdle : World :=
  World.ofForm { email := "a;b@x.y", password := "s3cret", loading := false }

/-- The error of a request that never got a response. -/
def networkError : JsError :=
  { name := "TypeError", message := .str "Failed to fetch" }

/-! ## Lemmas on the string primitives and the cookie functions -/

theorem splitChars_eq_splitOn (sep : Char) (s : List Char) :
    splitChars sep s = s.splitOn sep := by
  induction s with
  | nil => simp [splitChars, List.splitOn]
  | cons ch rest ih =>
    unfold splitChars
    rw [List.splitOn, List.splitOnP_cons]
    rw [List.splitOn] at ih
    by_cases h : ch = sep
    · simp [h, ih]
    · simp only [h, if_false, beq_iff_eq, ih]
      cases hs : List.splitOnP (fun x => x == sep) rest with
      | nil => exact absurd hs (List.splitOnP_ne_nil _ _)
      | cons seg segs => simp [List.modifyHead]

theorem stripLoop_data (c : String) :
    (stripLoop c).data = c.data.dropWhile (fun ch => ch == ' ') := by
  rcases c with ⟨cs⟩
  induction cs with
  | nil => rw [stripLoop]; simp [charAt]
  | cons x xs ih =>
    rw [stripLoop]
    by_cases hx : x = ' '
    · subst hx
      have : substringFrom ⟨' ' :: xs⟩ 1 = ⟨xs⟩ := by
        simp [substringFrom, substring, String.length]
      simp [charAt, this, ih]
    · have : charAt ⟨x :: xs⟩ 0 ≠ " " := by
        simp [charAt, String.ext_iff, hx]
      simp [this, List.dropWhile_cons, hx]

theorem indexOfChars_eq_zero (s t : List Char) :
    indexOfChars s t = 0 ↔ t.isPrefixOf s = true := by
  cases s with
  | nil => unfold indexOfChars; split <;> simp_all
  | cons ch rest =>
    unfold indexOfChars
    by_cases h : t.isPrefixOf (ch :: rest) = true
    · simp [h]
    · simp only [h, if_false]
      have : ¬ ((if indexOfChars rest t < 0 then (-1 : Int) else indexOfChars rest t + 1) = 0) := by
        split <;> omega
      simpa [h] using this

theorem substring_to_length (c : String) (n : Nat) :
    substring c n c.length = ⟨c.data.drop n⟩ := by
  rcases c with ⟨cs⟩
  simp only [substring, String.length]
  congr 1
  rcases Nat.le_total n cs.length with h | h
  · simp [Nat.min_eq_left h, Nat.max_eq_right h]
  · simp [Nat.min_eq_right h, List.drop_eq_nil_of_le h]

theorem getCookieLoop_eq_firstMatch (name : String) (ca : List String) :
    ∀ (n i : Nat), ca.length - i = n → getCookieLoop name ca i = firstMatch name (ca.drop i) := by
  intro n
  induction n with
  | zero =>
    intro i hi
    have hle : ca.length ≤ i := by omega
    rw [getCookieLoop]
    simp [Nat.not_lt.mpr hle, List.drop_eq_nil_of_le hle, firstMatch]
  | succ n ih =>
    intro i hi
    have hlt : i < ca.length := by omega
    rw [getCookieLoop]
    rw [List.drop_eq_getElem_cons hlt]
    simp only [hlt, dite_true, firstMatch, List.map_cons, List.find?_cons, List.get_eq_getElem]
    by_cases hm : indexOf (stripLoop ca[i]) name = 0
    · simp [hm]
    · simp only [hm, if_false, decide_False]
      rw [ih (i + 1) (by omega)]
      rfl

theorem firstMatch_mk (name : String) (L : List (List Char)) :
    firstMatch name (L.map String.mk) =
      match (L.map (List.dropWhile (fun ch => ch == ' '))).find?
          (fun seg => name.data.isPrefixOf seg) with
      | some seg => ⟨seg.drop name.data.length⟩
      | none => "" := by
  induction L with
  | nil => simp [firstMatch]
  | cons seg rest ih =>
    have hd : (stripLoop ⟨seg⟩) = ⟨seg.dropWhile (fun ch => ch == ' ')⟩ := by
      apply String.ext
      simpa using stripLoop_data ⟨seg⟩
    simp only [firstMatch, List.map_cons, List.find?_cons] at ih ⊢
    by_cases hp : name.data.isPrefixOf (seg.dropWhile (fun ch => ch == ' ')) = true
    · have h0 : indexOf (stripLoop ⟨seg⟩) name = 0 := by
        rw [hd]; exact (indexOfChars_eq_zero _ _).mpr hp
      simp only [h0, decide_True, hp]
      rw [hd, String.length, substring_to_length]
    · have h0 : ¬ indexOf (stripLoop ⟨seg⟩) name = 0 := by
        rw [hd]; exact fun h => hp ((indexOfChars_eq_zero _ _).mp h)
      simp only [h0, decide_False, hp]
      exact ih

theorem splitChars_of_not_mem {sep : Char} {seg : List Char} (h : sep ∉ seg) :
    splitChars sep seg = [seg] := by
  induction seg with
  | nil => rfl
  | cons a l ih =>
    have ha : a ≠ sep := fun e => h (e ▸ List.mem_cons_self _ _)
    have hl : sep ∉ l := fun e => h (List.mem_cons_of_mem _ e)
    simp [splitChars, ha, ih hl]

theorem splitChars_append_sep {sep : Char} {seg : List Char} (h : sep ∉ seg) (rest : List Char) :
    splitChars sep (seg ++ sep :: rest) = seg :: splitChars sep rest := by
  induction seg with
  | nil => simp [splitChars]
  | cons a l ih =>
    have ha : a ≠ sep := fun e => h (e ▸ List.mem_cons_self _ _)
    have hl : sep ∉ l := fun e => h (List.mem_cons_of_mem _ e)
    simp [splitChars, ha, ih hl]

theorem getCookie_eq_search (header name : String) :
    getCookie header name =
      match ((splitChars ';' header.data).map (List.dropWhile (fun ch => ch == ' '))).find?
          (fun seg => (name.data ++ ['=']).isPrefixOf seg) with
      | some seg => ⟨seg.drop (name.data.length + 1)⟩
      | none => "" := by
  unfold getCookie
  simp only []
  rw [getCookieLoop_eq_firstMatch _ _ _ 0 rfl, List.drop_zero, split, firstMatch_mk]
  simp [String.data_append]

theorem setCookie_pair (now : Int) (toUTCString : Int → String) (name value : String)
    (ttlDays : Int) (hsemi : ';' ∉ name.data) (hvsemi : ';' ∉ value.data) :
    writtenPair (setCookie now toUTCString name value ttlDays) = name ++ "=" ++ value := by
  apply String.ext
  have hdata : (setCookie now toUTCString name value ttlDays).data =
      (name.data ++ '=' :: value.data) ++ ';' ::
        ("expires=" ++ toUTCString (now + ttlDays * 24 * 60 * 60 * 1000) ++ ";path=/").data := by
    simp [setCookie, String.data_append]
  show List.takeWhile _ (setCookie now toUTCString name value ttlDays).data = _
  rw [hdata, List.takeWhile_append_of_pos]
  · simp [String.data_append]
  · intro a ha
    rcases List.mem_append.mp ha with h | h
    · simpa using fun e : a = ';' => hsemi (e ▸ h)
    · rcases List.mem_cons.mp h with h | h
      · subst h; decide
      · simpa using fun e : a = ';' => hvsemi (e ▸ h)

theorem splitChars_head_segment {seg rest : List Char} (hseg : ';' ∉ seg)
    (hrest : rest = [] ∨ rest.head? = some ';') :
    ∃ tl, splitChars ';' (seg ++ rest) = seg :: tl := by
  cases rest with
  | nil => exact ⟨[], by simpa using splitChars_of_not_mem hseg⟩
  | cons r rs =>
    have hr : r = ';' := by
      rcases hrest with h | h
      · cases h
      · simpa using h
    subst hr
    exact ⟨splitChars ';' rs, splitChars_append_sep hseg rs⟩

theorem headerWith_segments (before : List String) (spaces : Nat) (pair rest : String)
    (hb : ∀ b ∈ before, ';' ∉ b.data) (hp : ';' ∉ pair.data)
    (hrest : rest = "" ∨ rest.data.head? = some ';') :
    ∃ tl, splitChars ';' (headerWith before spaces pair rest).data =
      before.map String.data ++ (List.replicate spaces ' ' ++ pair.data) :: tl := by
  induction before with
  | nil =>
    have hseg : ';' ∉ List.replicate spaces ' ' ++ pair.data := by
      intro h
      rcases List.mem_append.mp h with h | h
      · have := List.eq_of_mem_replicate h
        exact absurd this (by decide)
      · exact hp h
    have hr : rest.data = [] ∨ rest.data.head? = some ';' := by
      rcases hrest with h | h
      · left; rw [h]
      · right; exact h
    obtain ⟨tl, htl⟩ := splitChars_head_segment hseg hr
    refine ⟨tl, ?_⟩
    simpa [headerWith, String.data_append, List.append_assoc] using htl
  | cons b bs ih =>
    obtain ⟨tl, htl⟩ := ih (fun x hx => hb x (List.mem_cons_of_mem _ hx))
    refine ⟨tl, ?_⟩
    have hd : (headerWith (b :: bs) spaces pair rest).data =
        b.data ++ ';' :: (headerWith bs spaces pair rest).data := by
      simp [headerWith, String.data_append]
    rw [hd, splitChars_append_sep (hb b (List.mem_cons_self _ _)), htl]
    rfl

theorem getCookie_headerWith (before : List String) (spaces : Nat) (name value rest : String)
    (hsemi : ';' ∉ name.data) (hsp : name.data.head? ≠ some ' ') (hvsemi : ';' ∉ value.data)
    (hb : ∀ b ∈ before, ';' ∉ b.data ∧
      (name.data ++ ['=']).isPrefixOf (b.data.dropWhile (fun ch => ch == ' ')) = false)
    (hrest : rest = "" ∨ rest.data.head? = some ';') :
    getCookie (headerWith before spaces (name ++ "=" ++ value) rest) name = value := by
  have hp : ';' ∉ (name ++ "=" ++ value).data := by
    simp [String.data_append, hsemi, hvsemi]
  obtain ⟨tl, htl⟩ := headerWith_segments before spaces (name ++ "=" ++ value) rest
    (fun b h => (hb b h).1) hp hrest
  have hpair : (name ++ "=" ++ value).data = name.data ++ '=' :: value.data := by
    simp [String.data_append]
  have hstrip : (List.replicate spaces ' ' ++ (name.data ++ '=' :: value.data)).dropWhile
      (fun ch => ch == ' ') = name.data ++ '=' :: value.data := by
    rw [List.dropWhile_append_of_pos]
    · cases hn : name.data with
      | nil => simp [List.dropWhile_cons]
      | cons a l =>
        rw [hn] at hsp
        have : a ≠ ' ' := by simpa using hsp
        simp [List.dropWhile_cons, this]
    · intro a ha
      simp [List.eq_of_mem_replicate ha]
  have hmatch : (name.data ++ ['=']).isPrefixOf (name.data ++ '=' :: value.data) = true := by
    rw [List.isPrefixOf_iff_prefix]
    exact ⟨value.data, by simp⟩
  have hnone : ((before.map String.data).map (List.dropWhile (fun ch => ch == ' '))).find?
      (fun seg => (name.data ++ ['=']).isPrefixOf seg) = none := by
    rw [List.find?_eq_none]
    intro x hx
    simp only [List.mem_map] at hx
    obtain ⟨y, ⟨b, hbm, rfl⟩, rfl⟩ := hx
    simp [(hb b hbm).2]
  rw [getCookie_eq_search, htl, hpair, List.map_append, List.map_cons, List.find?_append, hnone,
    hstrip]
  simp only [Option.none_or, List.find?_cons, hmatch]
  apply String.ext
  show List.drop (name.data.length + 1) (name.data ++ '=' :: value.data) = value.data
  rw [show name.data ++ '=' :: value.data = (name.data ++ ['=']) ++ value.data by simp]
  exact List.drop_left' (by simp)

/-! ## Lemmas on `handleLogin` -/

theorem handleLogin_of_empty (env : Env) (rt : RoundTrip) (during : List PageEvent) (w : World)
    (h : w.form.email = "" ∨ w.form.password = "") :
    handleLogin env rt during w = { w with toasts := w.toasts ++ [warningToast] } := by
  simp [handleLogin, handleLoginSync, h, displayToaster, warningToast]

theorem handleLogin_of_loading (env : Env) (rt : RoundTrip) (during : List PageEvent)
    (w : World)
    (h1 : w.form.email ≠ "") (h2 : w.form.password ≠ "") (hl : w.form.loading = true) :
    handleLogin env rt during w = w := by
  simp [handleLogin, handleLoginSync, h1, h2, hl]

theorem handleLoginSync_of_idle (env : Env) (w : World)
    (h1 : w.form.email ≠ "") (h2 : w.form.password ≠ "") (hl : w.form.loading = false) :
    handleLoginSync env w =
      ({ w with form := { w.form with loading := true },
                requests := w.requests ++ [loginRequest env w.form] }, true) := by
  simp [handleLoginSync, h1, h2, hl, loginRequest]

theorem handleLogin_of_idle (env : Env) (rt : RoundTrip) (during : List PageEvent) (w : World)
    (h1 : w.form.email ≠ "") (h2 : w.form.password ≠ "") (hl : w.form.loading = false) :
    handleLogin env rt during w = handleLoginResume env rt (atResponse env during w) := by
  simp [handleLogin, handleLoginSync_of_idle env w h1 h2 hl, atResponse]

theorem atResponse_nil (env : Env) (w : World) :
    atResponse env [] w =
      { w with form := { w.form with loading := true },
               requests := w.requests ++ [loginRequest env w.form] } := rfl

/-- One event on a page with `loading` true changes at most the two fields
and the toasts. -/
theorem apply_frame (env : Env) (e : PageEvent) (w : World) (hl : w.form.loading = true) :
    (e.apply env w).form.loading = true ∧
    (e.apply env w).requests = w.requests ∧
    (e.apply env w).sessionWrites = w.sessionWrites ∧
    (e.apply env w).cookieWrites = w.cookieWrites ∧
    (e.apply env w).navigations = w.navigations ∧
    (e.apply env w).consoleErrors = w.consoleErrors ∧
    ((∀ value, e ≠ .inputEmail value) → (e.apply env w).form.email = w.form.email) := by
  cases e with
  | inputEmail value =>
    exact ⟨hl, rfl, rfl, rfl, rfl, rfl, fun h => absurd rfl (h value)⟩
  | inputPassword value => exact ⟨hl, rfl, rfl, rfl, rfl, rfl, fun _ => rfl⟩
  | submit =>
    by_cases h : w.form.email = "" ∨ w.form.password = ""
    · simp [PageEvent.apply, handleLoginSync, h, displayToaster, hl]
    · simp [PageEvent.apply, handleLoginSync, h, hl]

theorem inFlight_frame (env : Env) (during : List PageEvent) :
    ∀ w : World, w.form.loading = true →
      (inFlight env during w).form.loading = true ∧
      (inFlight env during w).requests = w.requests ∧
      (inFlight env during w).sessionWrites = w.sessionWrites ∧
      (inFlight env during w).cookieWrites = w.cookieWrites ∧
      (inFlight env during w).navigations = w.navigations ∧
      (inFlight env during w).consoleErrors = w.consoleErrors ∧
      ((∀ value, PageEvent.inputEmail value ∉ during) →
        (inFlight env during w).form.email = w.form.email) := by
  induction during with
  | nil => intro w hl; exact ⟨hl, rfl, rfl, rfl, rfl, rfl, fun _ => rfl⟩
  | cons e rest ih =>
    intro w hl
    obtain ⟨a1, a2, a3, a4, a5, a6, a7⟩ := apply_frame env e w hl
    obtain ⟨b1, b2, b3, b4, b5, b6, b7⟩ := ih (e.apply env w) a1
    refine ⟨b1, b2.trans a2, b3.trans a3, b4.trans a4, b5.trans a5, b6.trans a6, ?_⟩
    intro hno
    have h1 : ∀ value, e ≠ .inputEmail value :=
      fun value he => hno value (he ▸ List.mem_cons_self _ _)
    have h2 : ∀ value, PageEvent.inputEmail value ∉ rest :=
      fun value hm => hno value (List.mem_cons_of_mem _ hm)
    exact (b7 h2).trans (a7 h1)

theorem atResponse_frame (env : Env) (during : List PageEvent) (w : World) :
    (atResponse env during w).requests = w.requests ++ [loginRequest env w.form] ∧
    (atResponse env during w).sessionWrites = w.sessionWrites ∧
    (atResponse env during w).cookieWrites = w.cookieWrites ∧
    (atResponse env during w).navigations = w.navigations ∧
    (atResponse env during w).consoleErrors = w.consoleErrors ∧
    ((∀ value, PageEvent.inputEmail value ∉ during) →
      (atResponse env during w).form.email = w.form.email) := by
  obtain ⟨-, b2, b3, b4, b5, b6, b7⟩ := inFlight_frame env during
    { w with form := { w.form with loading := true },
             requests := w.requests ++ [loginRequest env w.form] } rfl
  exact ⟨b2, b3, b4, b5, b6, b7⟩

theorem finallyBlock_loading (w : World) : (finallyBlock w).form.loading = false := rfl

theorem handleLoginResume_loading (env : Env) (rt : RoundTrip) (w : World) :
    (handleLoginResume env rt w).form.loading = false := by
  unfold handleLoginResume
  split <;> rfl

theorem strictNe200_eq_false_iff (v : JsValue) :
    v.strictNe200 = false ↔ v = .num (.finite 200) := by
  cases v with
  | num n => cases n <;> simp [JsValue.strictNe200]
  | _ => simp [JsValue.strictNe200]

theorem tryBlock_requests (env : Env) (rt : RoundTrip) (w w1 : World)
    (h : tryBlock env rt w = .ok w1) : w1.requests = w.requests := by
  cases rt with
  | fetchRejected e => simp [tryBlock] at h
  | jsonRejected e => simp [tryBlock] at h
  | parsed data =>
    simp only [tryBlock, bind, Except.bind, pure, Except.pure] at h
    cases hs : data.getProp env.typeError "status" with
    | error e => rw [hs] at h; simp at h
    | ok status =>
      rw [hs] at h
      simp only [] at h
      by_cases hne : status.strictNe200 = true
      · rw [if_pos hne] at h
        cases hm : data.getProp env.typeError "message" with
        | error e => rw [hm] at h; simp at h
        | ok message =>
          rw [hm] at h
          simp only [Except.ok.injEq] at h
          rw [← h]; rfl
      · rw [if_neg hne] at h
        simp only [Except.ok.injEq] at h
        rw [← h]; rfl

theorem handleLoginResume_requests (env : Env) (rt : RoundTrip) (w : World) :
    (handleLoginResume env rt w).requests = w.requests := by
  unfold handleLoginResume
  split
  · rename_i w1 h
    exact tryBlock_requests env rt w w1 h
  · rfl

theorem orElse_ne_empty (a : JsValue) (s : String) (hs : s ≠ "") :
    a.orElse (.str s) ≠ .str "" := by
  unfold JsValue.orElse
  split
  · rename_i h
    intro e
    rw [e] at h
    simp [JsValue.truthy] at h
  · intro e
    injection e with e
    exact hs e

theorem handleLoginResume_accepted (env : Env) (fields : List (String × JsValue)) (w : World)
    (hs : fields.lookup "status" = some (.num (.finite 200))) :
    handleLoginResume env (.parsed (.obj fields)) w =
      { w with
        form := { w.form with loading := false },
        sessionWrites := w.sessionWrites ++ [("ec_id", w.form.email)],
        cookieWrites := w.cookieWrites ++
          [setCookie env.now env.toUTCString "ec_id" w.form.email 1],
        toasts := w.toasts ++
          [{ text := .str "Login successful, redirecting...", duration := 3000, close := false,
             gravity := "top", position := "right", background := "#ffa07a" }],
        navigations := w.navigations ++ [{ href := "./console.html", delayMs := 100 }] } := by
  simp [handleLoginResume, tryBlock, JsValue.getProp, hs, bind, Except.bind, pure, Except.pure,
    JsValue.strictNe200, displayToaster, finallyBlock]

theorem handleLoginResume_rejected (env : Env) (fields : List (String × JsValue)) (w : World)
    (hs : fields.lookup "status" ≠ some (.num (.finite 200))) :
    handleLoginResume env (.parsed (.obj fields)) w =
      { w with
        form := { w.form with loading := false },
        toasts := w.toasts ++
          [{ text := ((fields.lookup "message").getD .undefined).orElse
               (.str "Invalid credentials"),
             duration := 3000, close := false,
             gravity := "top", position := "right", background := "red" }] } := by
  have hne : ((fields.lookup "status").getD .undefined).strictNe200 = true := by
    cases hv : ((fields.lookup "status").getD .undefined).strictNe200 with
    | true => rfl
    | false =>
      exfalso
      rw [strictNe200_eq_false_iff] at hv
      cases hlk : fields.lookup "status" with
      | none => rw [hlk] at hv; simp at hv
      | some v => rw [hlk] at hv; simp at hv; exact hs (by rw [hlk, hv])
  cases hlk : fields.lookup "status" <;> cases hm : fields.lookup "message" <;>
    simp [hlk, hm] at hne ⊢ <;>
    simp [handleLoginResume, tryBlock, JsValue.getProp, hlk, hm, hne, bind, Except.bind, pure,
      Except.pure, displayToaster, finallyBlock]

theorem handleLoginResume_thrown (env : Env) (rt : RoundTrip) (error : JsError) (w : World)
    (hrt : rt = .fetchRejected error ∨ rt = .jsonRejected error) :
    handleLoginResume env rt w =
      { w with
        form := { w.form with loading := false },
        toasts := w.toasts ++
          [{ text := error.message.orElse (.str "Something went wrong, please try again"),
             duration := 3000, close := false,
             gravity := "top", position := "right", background := "red" }],
        consoleErrors := w.consoleErrors ++ [("[Error]::[Auth] -> ", error)] } := by
  rcases hrt with h | h <;> subst h <;>
    simp [handleLoginResume, tryBlock, catchBlock, displayToaster, finallyBlock]

/-! ## The claims -/

/-- Claim C1: when the identifier (`email`) or the secret (`password`) is the
empty string, a call of `handleLogin` changes the world in exactly one way, by
showing the one warning toast "Please enter email and password": no request is
issued, nothing is written to session storage or to `document.cookie`, no
navigation is scheduled, nothing is logged and `loading` keeps its value. -/
theorem handleLogin_empty_field_warns_only (env : Env) (rt : RoundTrip)
    (during : List PageEvent) (w : World)
    (h : w.form.email = "" ∨ w.form.password = "") :
    handleLogin env rt during w = { w with toasts := w.toasts ++ [warningToast] } ∧
    warningToast.text = .str "Please enter email and password" := by
  exact ⟨handleLogin_of_empty env rt during w h, rfl⟩

/-- The validation branch at a form whose secret is empty. -/
theorem handleLogin_empty_field_warns_only_witness :
    (blankIdle.form.email = "" ∨ blankIdle.form.password = "") ∧
    handleLogin sampleEnv (.parsed .null) [] blankIdle =
      { blankIdle with toasts := blankIdle.toasts ++ [warningToast] } ∧
    warningToast.text = .str "Please enter email and password" :=
  ⟨by decide,
    handleLogin_empty_field_warns_only sampleEnv (.parsed .null) [] blankIdle (by decide)⟩

/-- Claim C2: when `loading` is true, whatever the identifier and the secret
are and however a round trip would end, a call of `handleLogin` issues no
request and returns with `loading` still true. -/
theorem handleLogin_in_flight_no_request (env : Env) (rt : RoundTrip)
    (during : List PageEvent) (w : World)
    (hl : w.form.loading = true) :
    (handleLogin env rt during w).requests = w.requests ∧
    (handleLogin env rt during w).form.loading = true := by
  by_cases h : w.form.email = "" ∨ w.form.password = ""
  · rw [handleLogin_of_empty env rt during w h]; exact ⟨rfl, hl⟩
  · have h1 : w.form.email ≠ "" := fun e => h (Or.inl e)
    have h2 : w.form.password ≠ "" := fun e => h (Or.inr e)
    rw [handleLogin_of_loading env rt during w h1 h2 hl]; exact ⟨rfl, hl⟩

/-- A second call while a submission is in flight. -/
theorem handleLogin_in_flight_no_request_witness :
    filledInFlight.form.loading = true ∧
    (handleLogin sampleEnv (.parsed (.obj rejectedBody)) [] filledInFlight).requests =
      filledInFlight.requests ∧
    (handleLogin sampleEnv (.parsed (.obj rejectedBody)) [] filledInFlight).form.loading = true :=
  ⟨rfl, handleLogin_in_flight_no_request sampleEnv (.parsed (.obj rejectedBody)) []
    filledInFlight rfl⟩

/-- Claim C3: a call of `handleLogin` that starts with `loading` false returns
with `loading` false, for every form, every way the round trip can end
(validation failure, status 200, any other status, `fetch` rejected, a body
that fails to parse, a body that is `null` or not an object) and whatever
happens on the page while the call waits. -/
theorem handleLogin_ends_idle (env : Env) (rt : RoundTrip) (during : List PageEvent)
    (w : World) (hl : w.form.loading = false) :
    (handleLogin env rt during w).form.loading = false := by
  by_cases h : w.form.email = "" ∨ w.form.password = ""
  · rw [handleLogin_of_empty env rt during w h]; exact hl
  · have h1 : w.form.email ≠ "" := fun e => h (Or.inl e)
    have h2 : w.form.password ≠ "" := fun e => h (Or.inr e)
    rw [handleLogin_of_idle env rt during w h1 h2 hl]
    exact handleLoginResume_loading _ _ _

/-- A call whose response body is `null` ends idle. -/
theorem handleLogin_ends_idle_witness :
    filledIdle.form.loading = false ∧
    (handleLogin sampleEnv (.parsed .null) [.submit] filledIdle).form.loading = false :=
  ⟨rfl, handleLogin_ends_idle sampleEnv (.parsed .null) [.submit] filledIdle rfl⟩

/-- Claim C4, as the code has it: with both fields non-empty and no submission
in flight, when the parsed response is an object whose `status` is the number
200, `handleLogin` calls `sessionStorage.setItem("ec_id", email)` and assigns
to `document.cookie` the string `setCookie("ec_id", email, 1)` builds, where
`email` is the identifier the form holds when the response arrives; it shows
exactly one toast, the success message with the default colour `#ffa07a`,
schedules exactly one navigation, to `./console.html` after 100 ms, and sets
`loading` to false. Up to the response the call has issued its one request and
written nothing, and when no input changed `email` while the call waited, the
identifier written is the submitted one. -/
theorem handleLogin_success_effects (env : Env) (fields : List (String × JsValue))
    (during : List PageEvent) (w : World)
    (h1 : w.form.email ≠ "") (h2 : w.form.password ≠ "") (hl : w.form.loading = false)
    (hs : fields.lookup "status" = some (.num (.finite 200))) :
    handleLogin env (.parsed (.obj fields)) during w =
      { atResponse env during w with
        form := { (atResponse env during w).form with loading := false },
        sessionWrites := (atResponse env during w).sessionWrites ++
          [("ec_id", (atResponse env during w).form.email)],
        cookieWrites := (atResponse env during w).cookieWrites ++
          [setCookie env.now env.toUTCString "ec_id" (atResponse env during w).form.email 1],
        toasts := (atResponse env during w).toasts ++
          [{ text := .str "Login successful, redirecting...", duration := 3000, close := false,
             gravity := "top", position := "right", background := "#ffa07a" }],
        navigations := (atResponse env during w).navigations ++
          [{ href := "./console.html", delayMs := 100 }] } ∧
    (atResponse env during w).requests = w.requests ++ [loginRequest env w.form] ∧
    (atResponse env during w).sessionWrites = w.sessionWrites ∧
    (atResponse env during w).cookieWrites = w.cookieWrites ∧
    (atResponse env during w).navigations = w.navigations ∧
    (atResponse env during w).consoleErrors = w.consoleErrors ∧
    ((∀ value, PageEvent.inputEmail value ∉ during) →
      (atResponse env during w).form.email = w.form.email) := by
  refine ⟨?_, atResponse_frame env during w⟩
  rw [handleLogin_of_idle env _ during w h1 h2 hl]
  exact handleLoginResume_accepted env fields _ hs

/-- The response `{"status":200}` to a call during which only the secret was
edited: the submitted identifier is written. -/
theorem handleLogin_success_effects_witness :
    (handleLogin sampleEnv (.parsed (.obj acceptedBody)) [.inputPassword "other"]
      filledIdle).sessionWrites = [("ec_id", "ada@example.test")] ∧
    (handleLogin sampleEnv (.parsed (.obj acceptedBody)) [.inputPassword "other"]
      filledIdle).cookieWrites = ["ec_id=ada@example.test;expires=86400000;path=/"] ∧
    (handleLogin sampleEnv (.parsed (.obj acceptedBody)) [.inputPassword "other"]
      filledIdle).navigations = [{ href := "./console.html", delayMs := 100 }] := by
  rw [(handleLogin_success_effects sampleEnv acceptedBody [.inputPassword "other"] filledIdle
    (by decide) (by decide) rfl rfl).1]
  exact ⟨rfl, by decide, rfl⟩

/-- Claim C4 fails as stated: a call made with the identifier
`ada@example.test`, during which the input changes `email` to
`eve@example.test`, sends `ada@example.test` in its request and, on status
200, writes `eve@example.test` to session storage and to the cookie string.
And for the identifier `a;b@x.y` the string assigned to `document.cookie`
carries the identifier across a `;`, where the pair of a cookie ends. -/
theorem handleLogin_success_writes_identifier_at_response :
    filledIdle.form.email = "ada@example.test" ∧
    (handleLogin sampleEnv (.parsed (.obj acceptedBody)) [.inputEmail "eve@example.test"]
      filledIdle).requests =
      [{ url := "https://auth.example.test/login", method := "POST",
         headers := [("Content-Type", "application/json")],
         bodyJson := .obj [("email", .str "ada@example.test"), ("password", .str "s3cret")] }] ∧
    (handleLogin sampleEnv (.parsed (.obj acceptedBody)) [.inputEmail "eve@example.test"]
      filledIdle).sessionWrites = [("ec_id", "eve@example.test")] ∧
    (handleLogin sampleEnv (.parsed (.obj acceptedBody)) [.inputEmail "eve@example.test"]
      filledIdle).cookieWrites = ["ec_id=eve@example.test;expires=86400000;path=/"] ∧
    (handleLogin sampleEnv (.parsed (.obj acceptedBody)) [] semicolonIdle).cookieWrites =
      ["ec_id=a;b@x.y;expires=86400000;path=/"] ∧
    writtenPair "ec_id=a;b@x.y;expires=86400000;path=/" = "ec_id=a" := by
  refine ⟨rfl, rfl, rfl, by decide, by decide, by decide⟩

/-- Claim C5: with both fields non-empty and no submission in flight, when the
parsed response is an object whose `status` is anything but the number 200
(another number, a string, absent), `handleLogin` writes nothing to session
storage or to `document.cookie`, schedules no navigation, logs nothing and
shows exactly one toast, in red, whose text is the response's `message` when
that is a non-empty string and "Invalid credentials" when it is absent or the
empty string. This holds whatever happens on the page while the call waits:
the rest of the call adds the one toast and resets `loading` on the page as
it is when the response arrives. -/
theorem handleLogin_rejected_status_effects (env : Env) (fields : List (String × JsValue))
    (w : World)
    (h1 : w.form.email ≠ "") (h2 : w.form.password ≠ "") (hl : w.form.loading = false)
    (hs : fields.lookup "status" ≠ some (.num (.finite 200))) :
    ∃ text : JsValue,
      handleLogin env (.parsed (.obj fields)) [] w =
        { w with
          form := { w.form with loading := false },
          requests := w.requests ++ [loginRequest env w.form],
          toasts := w.toasts ++
            [{ text := text, duration := 3000, close := false,
               gravity := "top", position := "right", background := "red" }] } ∧
      (∀ during : List PageEvent,
        handleLogin env (.parsed (.obj fields)) during w =
          { atResponse env during w with
            form := { (atResponse env during w).form with loading := false },
            toasts := (atResponse env during w).toasts ++
              [{ text := text, duration := 3000, close := false,
                 gravity := "top", position := "right", background := "red" }] } ∧
        (atResponse env during w).requests = w.requests ++ [loginRequest env w.form] ∧
        (atResponse env during w).sessionWrites = w.sessionWrites ∧
        (atResponse env during w).cookieWrites = w.cookieWrites ∧
        (atResponse env during w).navigations = w.navigations ∧
        (atResponse env during w).consoleErrors = w.consoleErrors) ∧
      (∀ s : String, fields.lookup "message" = some (.str s) → s ≠ "" → text = .str s) ∧
      (fields.lookup "message" = none ∨ fields.lookup "message" = some (.str "") →
        text = .str "Invalid credentials") := by
  have hgen : ∀ during : List PageEvent,
      handleLogin env (.parsed (.obj fields)) during w =
        { atResponse env during w with
          form := { (atResponse env during w).form with loading := false },
          toasts := (atResponse env during w).toasts ++
            [{ text := ((fields.lookup "message").getD .undefined).orElse
                 (.str "Invalid credentials"),
               duration := 3000, close := false,
               gravity := "top", position := "right", background := "red" }] } := by
    intro during
    rw [handleLogin_of_idle env _ during w h1 h2 hl]
    exact handleLoginResume_rejected env fields _ hs
  refine ⟨((fields.lookup "message").getD .undefined).orElse (.str "Invalid credentials"),
    ?_, ?_, ?_, ?_⟩
  · exact hgen []
  · intro during
    obtain ⟨a1, a2, a3, a4, a5, -⟩ := atResponse_frame env during w
    exact ⟨hgen during, a1, a2, a3, a4, a5⟩
  · intro s hm hne
    simp [hm, JsValue.orElse, JsValue.truthy, hne]
  · rintro (hm | hm) <;> simp [hm, JsValue.orElse, JsValue.truthy]

/-- The response `{"status":401,"message":"bad credentials"}`: the toast
carries the message of the server and nothing is written. -/
theorem handleLogin_rejected_status_effects_witness :
    handleLogin sampleEnv (.parsed (.obj rejectedBody)) [] filledIdle =
      { filledIdle with
        requests := filledIdle.requests ++ [loginRequest sampleEnv filledIdle.form],
        toasts := filledIdle.toasts ++
          [{ text := .str "bad credentials", duration := 3000, close := false,
             gravity := "top", position := "right", background := "red" }] } := by
  obtain ⟨text, heq, -, hmsg, -⟩ := handleLogin_rejected_status_effects sampleEnv rejectedBody
    filledIdle (by decide) (by decide) rfl (by simp [rejectedBody, List.lookup])
  rw [heq, hmsg "bad credentials" rfl (by decide)]
  rfl

/-- Claim C6: with both fields non-empty and no submission in flight, when
`fetch` is rejected or `response.json()` is rejected, `handleLogin` writes
nothing to session storage or to `document.cookie`, schedules no navigation,
shows exactly one toast, in red, and logs the error once. The text of the
toast is never the empty string: it is the error's `message` when that is a
non-empty string, and "Something went wrong, please try again" when the
message is missing or the empty string. This holds whatever happens on the
page while the call waits. -/
theorem handleLogin_transport_error_effects (env : Env) (rt : RoundTrip) (error : JsError)
    (w : World)
    (h1 : w.form.email ≠ "") (h2 : w.form.password ≠ "") (hl : w.form.loading = false)
    (hrt : rt = .fetchRejected error ∨ rt = .jsonRejected error) :
    ∃ text : JsValue,
      handleLogin env rt [] w =
        { w with
          form := { w.form with loading := false },
          requests := w.requests ++ [loginRequest env w.form],
          toasts := w.toasts ++
            [{ text := text, duration := 3000, close := false,
               gravity := "top", position := "right", background := "red" }],
          consoleErrors := w.consoleErrors ++ [("[Error]::[Auth] -> ", error)] } ∧
      (∀ during : List PageEvent,
        handleLogin env rt during w =
          { atResponse env during w with
            form := { (atResponse env during w).form with loading := false },
            toasts := (atResponse env during w).toasts ++
              [{ text := text, duration := 3000, close := false,
                 gravity := "top", position := "right", background := "red" }],
            consoleErrors := (atResponse env during w).consoleErrors ++
              [("[Error]::[Auth] -> ", error)] } ∧
        (atResponse env during w).requests = w.requests ++ [loginRequest env w.form] ∧
        (atResponse env during w).sessionWrites = w.sessionWrites ∧
        (atResponse env during w).cookieWrites = w.cookieWrites ∧
        (atResponse env during w).navigations = w.navigations ∧
        (atResponse env during w).consoleErrors = w.consoleErrors) ∧
      text ≠ .str "" ∧
      (∀ s : String, error.message = .str s → s ≠ "" → text = .str s) ∧
      (error.message = .undefined ∨ error.message = .str "" →
        text = .str "Something went wrong, please try again") := by
  have hgen : ∀ during : List PageEvent,
      handleLogin env rt during w =
        { atResponse env during w with
          form := { (atResponse env during w).form with loading := false },
          toasts := (atResponse env during w).toasts ++
            [{ text := error.message.orElse (.str "Something went wrong, please try again"),
               duration := 3000, close := false,
               gravity := "top", position := "right", background := "red" }],
          consoleErrors := (atResponse env during w).consoleErrors ++
            [("[Error]::[Auth] -> ", error)] } := by
    intro during
    rw [handleLogin_of_idle env _ during w h1 h2 hl]
    exact handleLoginResume_thrown env rt error _ hrt
  refine ⟨error.message.orElse (.str "Something went wrong, please try again"), ?_, ?_,
    orElse_ne_empty _ _ (by decide), ?_, ?_⟩
  · exact hgen []
  · intro during
    obtain ⟨a1, a2, a3, a4, a5, -⟩ := atResponse_frame env during w
    exact ⟨hgen during, a1, a2, a3, a4, a5⟩
  · intro s hm hne
    simp [hm, JsValue.orElse, JsValue.truthy, hne]
  · rintro (hm | hm) <;> simp [hm, JsValue.orElse, JsValue.truthy]

/-- A request rejected before any response: the toast carries the message of
the error, which is logged. -/
theorem handleLogin_transport_error_effects_witness :
    handleLogin sampleEnv (.fetchRejected networkError) [] filledIdle =
      { filledIdle with
        requests := filledIdle.requests ++ [loginRequest sampleEnv filledIdle.form],
        toasts := filledIdle.toasts ++
          [{ text := .str "Failed to fetch", duration := 3000, close := false,
             gravity := "top", position := "right", background := "red" }],
        consoleErrors := filledIdle.consoleErrors ++ [("[Error]::[Auth] -> ", networkError)] } := by
  obtain ⟨text, heq, -, -, hmsg, -⟩ := handleLogin_transport_error_effects sampleEnv
    (.fetchRejected networkError) networkError filledIdle (by decide) (by decide) rfl
    (Or.inl rfl)
  rw [heq, hmsg "Failed to fetch" rfl (by decide)]
  rfl

/-- Claim C7, as the code has it: for a name without `;` that does not start
with a space, a value without `;` and any `ttlDays`, the string
`setCookie(name, value, ttlDays)` assigns to `document.cookie` has
`name=value` as its text before the first `;`; and on every cookie header in
which that pair stands as a segment, after any number of leading spaces, with
no earlier segment that starts with `name=` once its leading spaces are
removed, `getCookie(name)` returns `value`. Which header is read after the
assignment is for the cookie store to say, not for the code. -/
theorem getCookie_reads_pair_setCookie_writes (now : Int) (toUTCString : Int → String)
    (name value : String) (ttlDays : Int)
    (before : List String) (spaces : Nat) (rest : String)
    (hsemi : ';' ∉ name.data) (hsp : name.data.head? ≠ some ' ') (hvsemi : ';' ∉ value.data)
    (hb : ∀ b ∈ before, ';' ∉ b.data ∧
      (name.data ++ ['=']).isPrefixOf (b.data.dropWhile (fun ch => ch == ' ')) = false)
    (hrest : rest = "" ∨ rest.data.head? = some ';') :
    writtenPair (setCookie now toUTCString name value ttlDays) = name ++ "=" ++ value ∧
    getCookie
      (headerWith before spaces (writtenPair (setCookie now toUTCString name value ttlDays)) rest)
      name = value := by
  have hpair := setCookie_pair now toUTCString name value ttlDays hsemi hvsemi
  refine ⟨hpair, ?_⟩
  rw [hpair]
  exact getCookie_headerWith before spaces name value rest hsemi hsp hvsemi hb hrest

/-- After `setCookie("k", "v", 1)`, on the header `theme=dark; k=v; kk=1`,
`getCookie("k")` is `"v"`. -/
theorem getCookie_reads_pair_setCookie_writes_witness :
    headerWith ["theme=dark"] 1 (writtenPair (setCookie 0 sampleEnv.toUTCString "k" "v" 1))
      "; kk=1" = "theme=dark; k=v; kk=1" ∧
    getCookie
      (headerWith ["theme=dark"] 1 (writtenPair (setCookie 0 sampleEnv.toUTCString "k" "v" 1))
        "; kk=1")
      "k" = "v" :=
  ⟨by decide,
    (getCookie_reads_pair_setCookie_writes 0 sampleEnv.toUTCString "k" "v" 1 ["theme=dark"] 1
      "; kk=1" (by decide) (by decide) (by decide) (by decide) (Or.inr rfl)).2⟩

/-- Claim C7 fails as stated: with a cookie `k=old` of another path held
before it, the header read after `setCookie("k", "v", 1)` is `k=old; k=v`; the
pair written stands in it, and `getCookie("k")` returns `"old"`. -/
theorem getCookie_returns_earlier_same_name :
    writtenPair (setCookie 0 sampleEnv.toUTCString "k" "v" 1) = "k=v" ∧
    headerWith ["k=old"] 1 (writtenPair (setCookie 0 sampleEnv.toUTCString "k" "v" 1)) "" =
      "k=old; k=v" ∧
    getCookie "k=old; k=v" "k" = "old" ∧
    getCookie "k=old; k=v" "k" ≠ "v" := by
  have h : getCookie "k=old; k=v" "k" = "old" := by
    rw [getCookie_eq_search]; decide
  refine ⟨by decide, by decide, h, ?_⟩
  rw [h]; decide

/-- Claim C8: for every cookie header and every name, `getCookie` returns what
the reference definition `readCookieSpec` returns (split on `;`, leading
spaces of each segment removed, first segment starting with `name=`, the text
after that prefix, the empty string when there is none), and in particular
the empty string on the empty header. The loops of `getCookie` end on every
input, and the function reads the header without changing anything. -/
theorem getCookie_refines_readCookieSpec :
    (∀ header name : String, getCookie header name = readCookieSpec header name) ∧
    (∀ name : String, getCookie "" name = "") := by
  have h : ∀ header name : String, getCookie header name = readCookieSpec header name := by
    intro header name
    rw [getCookie_eq_search, splitChars_eq_splitOn]
    rfl
  refine ⟨h, fun name => ?_⟩
  rw [h]
  simp [readCookieSpec, List.splitOn, List.splitOnP, List.splitOnP.go]

/-- Claim C9, as the code has it: with `loading` true, a call of `handleLogin`
changes nothing at all when both fields are non-empty; when the identifier or
the secret is empty, the validation runs before the re-entry guard, so the
call shows the one warning toast and changes nothing else (no request, no
storage or cookie write, no navigation, `loading` still true). -/
theorem handleLogin_in_flight_effects (env : Env) (rt : RoundTrip) (during : List PageEvent)
    (w : World) (hl : w.form.loading = true) :
    (w.form.email ≠ "" ∧ w.form.password ≠ "" → handleLogin env rt during w = w) ∧
    (w.form.email = "" ∨ w.form.password = "" →
      handleLogin env rt during w = { w with toasts := w.toasts ++ [warningToast] }) :=
  ⟨fun h => handleLogin_of_loading env rt during w h.1 h.2 hl,
   fun h => handleLogin_of_empty env rt during w h⟩

/-- A call in flight with both fields filled in, and one with the identifier
empty. -/
theorem handleLogin_in_flight_effects_witness :
    handleLogin sampleEnv (.parsed .null) [] filledInFlight = filledInFlight ∧
    handleLogin sampleEnv (.parsed .null) [] blankInFlight =
      { blankInFlight with toasts := blankInFlight.toasts ++ [warningToast] } :=
  ⟨(handleLogin_in_flight_effects sampleEnv (.parsed .null) [] filledInFlight rfl).1
      ⟨by decide, by decide⟩,
   (handleLogin_in_flight_effects sampleEnv (.parsed .null) [] blankInFlight rfl).2
      (Or.inl rfl)⟩

/-- Claim C9 fails as stated: with `loading` true and the identifier empty, a
call of `handleLogin` shows a toast, the validation warning. -/
theorem handleLogin_in_flight_blank_shows_warning :
    blankInFlight.form.loading = true ∧
    blankInFlight.toasts = [] ∧
    (handleLogin sampleEnv (.parsed .null) [] blankInFlight).toasts = [warningToast] ∧
    handleLogin sampleEnv (.parsed .null) [] blankInFlight ≠ blankInFlight := by
  refine ⟨rfl, rfl, rfl, ?_⟩
  intro h
  have hlen := congrArg (fun x => x.toasts.length) h
  revert hlen
  decide

/-- Claim C10: with both fields non-empty and no submission in flight, the
part of `handleLogin` that runs up to the first `await` sets `loading` to true
and issues one request, and the whole call issues exactly that one request
however the round trip ends and whatever happens on the page meanwhile: a
`POST` to `API_BASE_URL` followed by `/login`, with the header
`Content-Type: application/json` and, as body, the JSON text of an object
whose `email` is the identifier and whose `password` is the secret, both as
they were when the call was made. -/
theorem handleLogin_issues_one_request (env : Env) (rt : RoundTrip) (during : List PageEvent)
    (w : World)
    (h1 : w.form.email ≠ "") (h2 : w.form.password ≠ "") (hl : w.form.loading = false) :
    handleLoginSync env w =
      ({ w with
         form := { w.form with loading := true },
         requests := w.requests ++
           [{ url := env.API_BASE_URL ++ "/login", method := "POST",
              headers := [("Content-Type", "application/json")],
              bodyJson := .obj [("email", .str w.form.email),
                ("password", .str w.form.password)] }] }, true) ∧
    (handleLogin env rt during w).requests = w.requests ++
      [{ url := env.API_BASE_URL ++ "/login", method := "POST",
         headers := [("Content-Type", "application/json")],
         bodyJson := .obj [("email", .str w.form.email),
           ("password", .str w.form.password)] }] := by
  constructor
  · exact handleLoginSync_of_idle env w h1 h2 hl
  · rw [handleLogin_of_idle env rt during w h1 h2 hl, handleLoginResume_requests,
      (atResponse_frame env during w).1]
    rfl

/-- The request of a call made with both fields filled in, the identifier
edited while the call waits. -/
theorem handleLogin_issues_one_request_witness :
    (handleLoginSync sampleEnv filledIdle).1.form.loading = true ∧
    (handleLogin sampleEnv (.jsonRejected networkError) [.inputEmail "eve@example.test", .submit]
      filledIdle).requests =
      [{ url := "https://auth.example.test/login", method := "POST",
         headers := [("Content-Type", "application/json")],
         bodyJson := .obj [("email", .str "ada@example.test"), ("password", .str "s3cret")] }] := by
  have h := handleLogin_issues_one_request sampleEnv (.jsonRejected networkError)
    [.inputEmail "eve@example.test", .submit] filledIdle (by decide) (by decide) rfl
  refine ⟨?_, ?_⟩
  · rw [h.1]
  · rw [h.2]; rfl

end LockSmith
